import Mathlib

/-!
Shallow embedding of the AI-tribunal debate/voting contract (src/src/lib.rs).

The contract state (`Contract`) holds two keyed collections modelled as
association lists in insertion order (matching near-sdk `UnorderedMap`,
which iterates keys in insertion order and never removes entries here),
plus the two id counters and the owner account.  The execution
environment's implicit inputs (`env::signer_account_id()`,
`env::block_timestamp_ms()`) are threaded as explicit `signer`/`now`
parameters.  `u64`/`u8` values are modelled as `Nat`; the id counters are
seeded at 1 and incremented once per successful call, so they stay far
below the `u64` bound in any realisable trace.  A `panic_str` in the
contract aborts the call with no state change (the NEAR runtime rolls the
transaction back); `vote_debate` therefore returns the state paired with
an `Except` outcome, and every error branch returns the state exactly as
it was at the panic site.
-/

/-- Mirror of the Rust `Debate` struct. -/
structure Debate where
  topic : String
  creator : String
  created_at : Nat
  figure_1_name : String
  figure_1_image_url : String
  figure_2_name : String
  figure_2_image_url : String
  debate_dialogue : List (String × String × String)
deriving DecidableEq, Repr

/-- Mirror of the Rust `Vote` struct. -/
structure Vote where
  debate_id : Nat
  voter : String
  voted_at : Nat
  choice : Nat
deriving DecidableEq, Repr

/-- Mirror of the Rust `Contract` struct: the two `UnorderedMap`s are
association lists in insertion order. -/
structure Contract where
  owner_id : String
  debates : List (Nat × Debate)
  next_debate_id : Nat
  votes : List (Nat × Vote)
  next_vote_id : Nat
deriving DecidableEq, Repr

/-- `UnorderedMap::get`: lookup by key. -/
def mapGet (m : List (Nat × α)) (k : Nat) : Option α :=
  (m.find? (fun p => p.1 == k)).map (fun p => p.2)

/-- `UnorderedMap::insert`: replace in place if the key is present,
otherwise append (near-sdk pushes new keys at the end of its key vector). -/
def mapInsert (m : List (Nat × α)) (k : Nat) (v : α) : List (Nat × α) :=
  if m.any (fun p => p.1 == k) then
    m.map (fun p => if p.1 == k then (k, v) else p)
  else
    m ++ [(k, v)]

/-- `Contract::new`: counters seeded at 1, both maps empty. -/
def Contract.new (owner_id : String) : Contract :=
  { owner_id := owner_id, debates := [], next_debate_id := 1,
    votes := [], next_vote_id := 1 }

/-- `Contract::create_debate`.  Returns the updated state and the new
debate id.  `signer`/`now` are the environment's implicit inputs. -/
def create_debate (c : Contract) (signer : String) (now : Nat)
    (topic figure_1_name figure_1_image_url figure_2_name figure_2_image_url : String)
    (debate_dialogue : List (String × String × String)) : Contract × Nat :=
  ({ c with
      next_debate_id := c.next_debate_id + 1,
      debates := mapInsert c.debates c.next_debate_id
        { topic := topic, creator := signer, created_at := now,
          figure_1_name := figure_1_name, figure_1_image_url := figure_1_image_url,
          figure_2_name := figure_2_name, figure_2_image_url := figure_2_image_url,
          debate_dialogue := debate_dialogue } },
   c.next_debate_id)

/-- The three `panic_str` exits of `vote_debate`, in source order. -/
inductive VoteError where
  | NotFound
  | InvalidChoice
  | DuplicateVote
deriving DecidableEq, Repr

/-- The duplicate-vote scan of `vote_debate`: does any stored vote match
this debate and voter? -/
def voteExists (votes : List (Nat × Vote)) (debate_id : Nat) (voter : String) : Bool :=
  votes.any (fun p => p.2.debate_id == debate_id && p.2.voter == voter)

/-- `Contract::vote_debate`.  The returned `Contract` is the state at the
point where the call finished (errors abort before any write, so error
branches return the input state unchanged); the `Except` is the outcome. -/
def vote_debate (c : Contract) (signer : String) (now : Nat)
    (debate_id : Nat) (choice : Nat) : Contract × Except VoteError Nat :=
  if (mapGet c.debates debate_id).isNone then
    (c, Except.error VoteError.NotFound)
  else if choice ≠ 1 ∧ choice ≠ 2 then
    (c, Except.error VoteError.InvalidChoice)
  else if voteExists c.votes debate_id signer then
    (c, Except.error VoteError.DuplicateVote)
  else
    ({ c with
        next_vote_id := c.next_vote_id + 1,
        votes := mapInsert c.votes c.next_vote_id
          { debate_id := debate_id, voter := signer, voted_at := now, choice := choice } },
     Except.ok c.next_vote_id)

/-- The per-vote step of the tally loops in `get_debates` and
`get_detail_debate`. -/
def tallyStep (debate_id : Nat) (acc : Nat × Nat) (p : Nat × Vote) : Nat × Nat :=
  if p.2.debate_id = debate_id then
    if p.2.choice = 1 then (acc.1 + 1, acc.2)
    else if p.2.choice = 2 then (acc.1, acc.2 + 1)
    else acc
  else acc

/-- The tally loop: scan all votes, counting choice-1 and choice-2 votes
for the given debate. -/
def tally (votes : List (Nat × Vote)) (debate_id : Nat) : Nat × Nat :=
  votes.foldl (tallyStep debate_id) (0, 0)

/-- One row of `get_debates`' returned vector (the Rust 10-tuple, with
named fields in the same order). -/
structure DebateSummary where
  debate_id : Nat
  topic : String
  creator : String
  created_at : Nat
  figure_1_name : String
  figure_1_image_url : String
  figure_2_name : String
  figure_2_image_url : String
  figure_1_votes : Nat
  figure_2_votes : Nat
deriving DecidableEq, Repr

/-- The `Option` payload of `get_detail_debate` (the Rust 11-tuple, with
named fields in the same order: the summary plus the dialogue). -/
structure DebateDetail where
  debate_id : Nat
  topic : String
  creator : String
  created_at : Nat
  figure_1_name : String
  figure_1_image_url : String
  figure_2_name : String
  figure_2_image_url : String
  debate_dialogue : List (String × String × String)
  figure_1_votes : Nat
  figure_2_votes : Nat
deriving DecidableEq, Repr

/-- `Contract::get_debates`: one summary row per stored debate, tallies
computed by scanning all votes. -/
def get_debates (c : Contract) : List DebateSummary :=
  c.debates.map (fun p =>
    { debate_id := p.1, topic := p.2.topic, creator := p.2.creator,
      created_at := p.2.created_at,
      figure_1_name := p.2.figure_1_name, figure_1_image_url := p.2.figure_1_image_url,
      figure_2_name := p.2.figure_2_name, figure_2_image_url := p.2.figure_2_image_url,
      figure_1_votes := (tally c.votes p.1).1, figure_2_votes := (tally c.votes p.1).2 })

/-- `Contract::get_detail_debate`: `none` when the id is absent, otherwise
the stored fields plus the dialogue and the tallies. -/
def get_detail_debate (c : Contract) (debate_id : Nat) : Option DebateDetail :=
  (mapGet c.debates debate_id).map (fun debate =>
    { debate_id := debate_id, topic := debate.topic, creator := debate.creator,
      created_at := debate.created_at,
      figure_1_name := debate.figure_1_name, figure_1_image_url := debate.figure_1_image_url,
      figure_2_name := debate.figure_2_name, figure_2_image_url := debate.figure_2_image_url,
      debate_dialogue := debate.debate_dialogue,
      figure_1_votes := (tally c.votes debate_id).1,
      figure_2_votes := (tally c.votes debate_id).2 })

/-- `Contract::get_user_vote_in_debate`: first stored vote matching the
debate id and the caller, projected to (choice, voted_at). -/
def get_user_vote_in_debate (c : Contract) (signer : String) (debate_id : Nat) :
    Option (Nat × Nat) :=
  (c.votes.find? (fun p => p.2.debate_id == debate_id && p.2.voter == signer)).map
    (fun p => (p.2.choice, p.2.voted_at))

/-- One external call: either `create_debate` or `vote_debate`, with the
environment's implicit inputs made explicit. -/
inductive Op where
  | create (signer : String) (now : Nat)
      (topic figure_1_name figure_1_image_url figure_2_name figure_2_image_url : String)
      (debate_dialogue : List (String × String × String))
  | vote (signer : String) (now : Nat) (debate_id : Nat) (choice : Nat)
deriving DecidableEq, Repr

/-- Apply one call to the state.  A failed `vote_debate` leaves the state
unchanged (its error branches return the input state). -/
def applyOp (c : Contract) : Op → Contract
  | Op.create s n t f1n f1u f2n f2u dl => (create_debate c s n t f1n f1u f2n f2u dl).1
  | Op.vote s n d ch => (vote_debate c s n d ch).1

/-- Run a sequence of calls from a given state. -/
def runFrom (c : Contract) (ops : List Op) : Contract :=
  ops.foldl applyOp c

/-- Run a sequence of calls from a freshly initialised contract. -/
def run (owner : String) (ops : List Op) : Contract :=
  runFrom (Contract.new owner) ops

/-- The debate ids returned by the `create_debate` calls of a trace, in
call order (every `create_debate` succeeds). -/
def createdIds (c : Contract) : List Op → List Nat
  | [] => []
  | Op.create s n t f1n f1u f2n f2u dl :: ops =>
      (create_debate c s n t f1n f1u f2n f2u dl).2 ::
        createdIds (create_debate c s n t f1n f1u f2n f2u dl).1 ops
  | Op.vote s n d ch :: ops => createdIds (vote_debate c s n d ch).1 ops

/-- The vote ids returned by the successful `vote_debate` calls of a
trace, in call order. -/
def voteIds (c : Contract) : List Op → List Nat
  | [] => []
  | Op.create s n t f1n f1u f2n f2u dl :: ops =>
      voteIds (create_debate c s n t f1n f1u f2n f2u dl).1 ops
  | Op.vote s n d ch :: ops =>
      match (vote_debate c s n d ch).2 with
      | Except.ok id => id :: voteIds (vote_debate c s n d ch).1 ops
      | Except.error _ => voteIds (vote_debate c s n d ch).1 ops

/-- Sample account name used by the concrete instances below. -/
def sOwner : String := "owner"

/-- Sample account name used by the concrete instances below. -/
def sAlice : String := "alice"

/-- Sample account name used by the concrete instances below. -/
def sBob : String := "bob"

/-- Sample debate topic. -/
def sTopic : String := "X vs Y"

/-- Sample figure-one name. -/
def sNameA : String := "A"

/-- Sample figure-one image url. -/
def sUrlA : String := "a.png"

/-- Sample figure-two name. -/
def sNameB : String := "B"

/-- Sample figure-two image url. -/
def sUrlB : String := "b.png"

/-- Sample call: alice creates a debate at time 100 (it gets id 1). -/
def exCreate : Op := Op.create sAlice 100 sTopic sNameA sUrlA sNameB sUrlB []

/-- Sample trace: just the debate creation. -/
def cexOps1 : List Op := [exCreate]

/-- Sample trace: the debate creation followed by bob voting choice 1 at
time 200 (vote id 1). -/
def cexOps : List Op := [exCreate, Op.vote sBob 200 1 1]

/-- Sample trace: like `cexOps` but with an additional vote by a different
participant (alice, choice 2, time 250). -/
def cexOps2 : List Op := cexOps ++ [Op.vote sAlice 250 1 2]

instance : DecidableEq (Except VoteError Nat) := fun a b =>
  match a, b with
  | Except.ok x, Except.ok y =>
      if h : x = y then isTrue (by rw [h]) else isFalse (fun hc => h (Except.ok.inj hc))
  | Except.ok _, Except.error _ => isFalse (fun hc => Except.noConfusion hc)
  | Except.error _, Except.ok _ => isFalse (fun hc => Except.noConfusion hc)
  | Except.error e, Except.error f =>
      if h : e = f then isTrue (by rw [h]) else isFalse (fun hc => h (Except.error.inj hc))

theorem find_append_some {α : Type} {p : α → Bool} {l₁ l₂ : List α} {a : α}
    (h : l₁.find? p = some a) : (l₁ ++ l₂).find? p = some a := by
  rw [List.find?_append, h]; rfl

theorem find_append_none {α : Type} {p : α → Bool} {l₁ l₂ : List α}
    (h : l₁.find? p = none) : (l₁ ++ l₂).find? p = l₂.find? p := by
  rw [List.find?_append, h]; rfl

theorem find_eq_head_filter {α : Type} (p : α → Bool) (l : List α) :
    l.find? p = (l.filter p).head? := by
  induction l with
  | nil => rfl
  | cons a l ih =>
      cases h : p a
      · rw [List.find?_cons_of_neg _ (by simp [h]), List.filter_cons_of_neg (by simp [h]), ih]
      · rw [List.find?_cons_of_pos _ h, List.filter_cons_of_pos h, List.head?_cons]

theorem mapGet_eq_none_iff {α : Type} {m : List (Nat × α)} {k : Nat} :
    mapGet m k = none ↔ ∀ p ∈ m, p.1 ≠ k := by
  simp [mapGet, List.find?_eq_none]

theorem mapGet_mem {α : Type} {m : List (Nat × α)} {k : Nat} {v : α}
    (h : mapGet m k = some v) : (k, v) ∈ m := by
  unfold mapGet at h
  rcases hf : m.find? (fun p => p.1 == k) with _ | q
  · rw [hf] at h; simp at h
  · rw [hf] at h
    have hq : q.1 = k := by simpa using List.find?_some hf
    have hv : q.2 = v := by simpa using h
    have hmem := List.mem_of_find?_eq_some hf
    obtain ⟨q1, q2⟩ := q
    simp only at hq hv
    rw [hq, hv] at hmem
    exact hmem

theorem mapInsert_fresh {α : Type} {m : List (Nat × α)} {k : Nat} (v : α)
    (h : ∀ p ∈ m, p.1 ≠ k) : mapInsert m k v = m ++ [(k, v)] := by
  unfold mapInsert
  have hany : m.any (fun p => p.1 == k) = false := by
    rw [List.any_eq_false]
    intro p hp
    simpa using h p hp
  simp [hany]

theorem mapGet_insert_self {α : Type} {m : List (Nat × α)} {k : Nat} {v : α}
    (h : ∀ p ∈ m, p.1 ≠ k) : mapGet (mapInsert m k v) k = some v := by
  rw [mapInsert_fresh v h]
  unfold mapGet
  rw [find_append_none]
  · simp [List.find?_cons]
  · rw [List.find?_eq_none]
    intro p hp
    simpa using h p hp

theorem mapGet_insert_of_some {α : Type} {m : List (Nat × α)} {k k' : Nat} {v w : α}
    (hfresh : ∀ p ∈ m, p.1 ≠ k) (h : mapGet m k' = some w) :
    mapGet (mapInsert m k v) k' = some w := by
  rw [mapInsert_fresh v hfresh]
  unfold mapGet at h ⊢
  rcases hf : m.find? (fun p => p.1 == k') with _ | q
  · rw [hf] at h; simp at h
  · rw [find_append_some hf]
    rw [hf] at h
    exact h

theorem mapInsert_mem {α : Type} {m : List (Nat × α)} {k : Nat} {v : α} {p : Nat × α}
    (h : p ∈ mapInsert m k v) : p ∈ m ∨ p.1 = k := by
  unfold mapInsert at h
  split at h
  · rcases List.mem_map.mp h with ⟨q, hq, hqe⟩
    by_cases hk : q.1 == k
    · rw [if_pos hk] at hqe
      right
      rw [← hqe]
    · rw [if_neg hk] at hqe
      left
      rw [← hqe]
      exact hq
  · rcases List.mem_append.mp h with hm | hm
    · exact Or.inl hm
    · right
      have : p = (k, v) := by simpa using hm
      rw [this]

theorem voteExists_false_iff {votes : List (Nat × Vote)} {d : Nat} {s : String} :
    voteExists votes d s = false ↔ ∀ p ∈ votes, p.2.debate_id = d → p.2.voter ≠ s := by
  simp [voteExists, List.any_eq_false]

theorem vote_debate_not_found {c : Contract} {s : String} {n d ch : Nat}
    (h : mapGet c.debates d = none) :
    vote_debate c s n d ch = (c, Except.error VoteError.NotFound) := by
  simp [vote_debate, h]

theorem vote_debate_invalid {c : Contract} {s : String} {n d ch : Nat}
    (hd : mapGet c.debates d ≠ none) (h1 : ch ≠ 1) (h2 : ch ≠ 2) :
    vote_debate c s n d ch = (c, Except.error VoteError.InvalidChoice) := by
  simp [vote_debate, Option.isNone_iff_eq_none, hd, h1, h2]

theorem vote_debate_duplicate {c : Contract} {s : String} {n d ch : Nat}
    (hd : mapGet c.debates d ≠ none) (hch : ch = 1 ∨ ch = 2)
    (hex : voteExists c.votes d s = true) :
    vote_debate c s n d ch = (c, Except.error VoteError.DuplicateVote) := by
  have hch' : ¬(ch ≠ 1 ∧ ch ≠ 2) := by tauto
  simp [vote_debate, Option.isNone_iff_eq_none, hd, hch', hex]

theorem vote_debate_success {c : Contract} {s : String} {n d ch : Nat}
    (hd : mapGet c.debates d ≠ none) (hch : ch = 1 ∨ ch = 2)
    (hex : voteExists c.votes d s = false) :
    vote_debate c s n d ch =
      ({ c with
          next_vote_id := c.next_vote_id + 1,
          votes := mapInsert c.votes c.next_vote_id
            { debate_id := d, voter := s, voted_at := n, choice := ch } },
       Except.ok c.next_vote_id) := by
  have hch' : ¬(ch ≠ 1 ∧ ch ≠ 2) := by tauto
  simp [vote_debate, Option.isNone_iff_eq_none, hd, hch', hex]

theorem vote_debate_ok_elim {c : Contract} {s : String} {n d ch id : Nat}
    (h : (vote_debate c s n d ch).2 = Except.ok id) :
    id = c.next_vote_id ∧ mapGet c.debates d ≠ none ∧ (ch = 1 ∨ ch = 2) ∧
    voteExists c.votes d s = false ∧
    (vote_debate c s n d ch).1 =
      { c with
          next_vote_id := c.next_vote_id + 1,
          votes := mapInsert c.votes c.next_vote_id
            { debate_id := d, voter := s, voted_at := n, choice := ch } } := by
  by_cases hd : mapGet c.debates d = none
  · rw [vote_debate_not_found hd] at h
    simp at h
  · by_cases hch : ch = 1 ∨ ch = 2
    · cases hex : voteExists c.votes d s
      · rw [vote_debate_success hd hch hex] at h ⊢
        refine ⟨by simpa using h.symm, hd, hch, rfl, rfl⟩
      · rw [vote_debate_duplicate hd hch hex] at h
        simp at h
    · have e1 : ch ≠ 1 := fun x => hch (Or.inl x)
      have e2 : ch ≠ 2 := fun x => hch (Or.inr x)
      rw [vote_debate_invalid hd e1 e2] at h
      simp at h

theorem vote_debate_error_fst {c : Contract} {s : String} {n d ch : Nat} {e : VoteError}
    (h : (vote_debate c s n d ch).2 = Except.error e) :
    (vote_debate c s n d ch).1 = c := by
  by_cases hd : mapGet c.debates d = none
  · rw [vote_debate_not_found hd]
  · by_cases hch : ch = 1 ∨ ch = 2
    · cases hex : voteExists c.votes d s
      · rw [vote_debate_success hd hch hex] at h
        simp at h
      · rw [vote_debate_duplicate hd hch hex]
    · have e1 : ch ≠ 1 := fun x => hch (Or.inl x)
      have e2 : ch ≠ 2 := fun x => hch (Or.inr x)
      rw [vote_debate_invalid hd e1 e2]

theorem vote_debate_fst_debates (c : Contract) (s : String) (n d ch : Nat) :
    (vote_debate c s n d ch).1.debates = c.debates := by
  unfold vote_debate
  split_ifs <;> rfl

theorem vote_debate_fst_next_debate_id (c : Contract) (s : String) (n d ch : Nat) :
    (vote_debate c s n d ch).1.next_debate_id = c.next_debate_id := by
  unfold vote_debate
  split_ifs <;> rfl

theorem vote_debate_fst_owner_id (c : Contract) (s : String) (n d ch : Nat) :
    (vote_debate c s n d ch).1.owner_id = c.owner_id := by
  unfold vote_debate
  split_ifs <;> rfl

theorem create_debate_snd (c : Contract) (s : String) (n : Nat)
    (t f1n f1u f2n f2u : String) (dl : List (String × String × String)) :
    (create_debate c s n t f1n f1u f2n f2u dl).2 = c.next_debate_id := rfl

theorem create_debate_fst_votes (c : Contract) (s : String) (n : Nat)
    (t f1n f1u f2n f2u : String) (dl : List (String × String × String)) :
    (create_debate c s n t f1n f1u f2n f2u dl).1.votes = c.votes := rfl

theorem create_debate_fst_next_vote_id (c : Contract) (s : String) (n : Nat)
    (t f1n f1u f2n f2u : String) (dl : List (String × String × String)) :
    (create_debate c s n t f1n f1u f2n f2u dl).1.next_vote_id = c.next_vote_id := rfl

theorem create_debate_fst_next_debate_id (c : Contract) (s : String) (n : Nat)
    (t f1n f1u f2n f2u : String) (dl : List (String × String × String)) :
    (create_debate c s n t f1n f1u f2n f2u dl).1.next_debate_id = c.next_debate_id + 1 := rfl

theorem create_debate_fst_owner_id (c : Contract) (s : String) (n : Nat)
    (t f1n f1u f2n f2u : String) (dl : List (String × String × String)) :
    (create_debate c s n t f1n f1u f2n f2u dl).1.owner_id = c.owner_id := rfl

theorem create_debate_fst_debates (c : Contract) (s : String) (n : Nat)
    (t f1n f1u f2n f2u : String) (dl : List (String × String × String)) :
    (create_debate c s n t f1n f1u f2n f2u dl).1.debates =
      mapInsert c.debates c.next_debate_id
        { topic := t, creator := s, created_at := n,
          figure_1_name := f1n, figure_1_image_url := f1u,
          figure_2_name := f2n, figure_2_image_url := f2u,
          debate_dialogue := dl } := rfl

/-- State invariant maintained by every reachable state: map keys are below
their counters (so fresh inserts append), every stored choice is 1 or 2,
and no two stored votes share a (debate_id, voter) pair. -/
structure LedgerInv (c : Contract) : Prop where
  dkeys : ∀ p ∈ c.debates, p.1 < c.next_debate_id
  vkeys : ∀ p ∈ c.votes, p.1 < c.next_vote_id
  choiceOk : ∀ p ∈ c.votes, p.2.choice = 1 ∨ p.2.choice = 2
  uniq : c.votes.Pairwise
    (fun p q => ¬(p.2.debate_id = q.2.debate_id ∧ p.2.voter = q.2.voter))

theorem inv_new (o : String) : LedgerInv (Contract.new o) := by
  constructor <;> simp [Contract.new]

theorem inv_create {c : Contract} (h : LedgerInv c) (s : String) (n : Nat)
    (t f1n f1u f2n f2u : String) (dl : List (String × String × String)) :
    LedgerInv (create_debate c s n t f1n f1u f2n f2u dl).1 := by
  have hfresh : ∀ p ∈ c.debates, p.1 ≠ c.next_debate_id :=
    fun p hp => Nat.ne_of_lt (h.dkeys p hp)
  constructor
  · rw [create_debate_fst_debates, create_debate_fst_next_debate_id,
        mapInsert_fresh _ hfresh]
    intro p hp
    rcases List.mem_append.mp hp with hm | hm
    · exact Nat.lt_succ_of_lt (h.dkeys p hm)
    · rw [List.mem_singleton.mp hm]
      exact Nat.lt_succ_self _
  · rw [create_debate_fst_votes, create_debate_fst_next_vote_id]
    exact h.vkeys
  · rw [create_debate_fst_votes]
    exact h.choiceOk
  · rw [create_debate_fst_votes]
    exact h.uniq

theorem inv_vote {c : Contract} (h : LedgerInv c) (s : String) (n d ch : Nat) :
    LedgerInv (vote_debate c s n d ch).1 := by
  rcases hr : (vote_debate c s n d ch).2 with e | id
  · rw [vote_debate_error_fst hr]
    exact h
  · obtain ⟨hid, hd, hch, hex, hfst⟩ := vote_debate_ok_elim hr
    have hins := mapInsert_fresh (m := c.votes) (k := c.next_vote_id)
      { debate_id := d, voter := s, voted_at := n, choice := ch }
      (fun p hp => Nat.ne_of_lt (h.vkeys p hp))
    rw [hfst]
    constructor
    · dsimp only
      exact h.dkeys
    · dsimp only
      rw [hins]
      intro p hp
      rcases List.mem_append.mp hp with hm | hm
      · exact Nat.lt_succ_of_lt (h.vkeys p hm)
      · rw [List.mem_singleton.mp hm]
        exact Nat.lt_succ_self _
    · dsimp only
      rw [hins]
      intro p hp
      rcases List.mem_append.mp hp with hm | hm
      · exact h.choiceOk p hm
      · rw [List.mem_singleton.mp hm]
        exact hch
    · dsimp only
      rw [hins, List.pairwise_append]
      refine ⟨h.uniq, by simp, ?_⟩
      intro p hp q hq
      rw [List.mem_singleton.mp hq]
      intro hcon
      have := voteExists_false_iff.mp hex p hp
      exact this hcon.1 hcon.2

theorem inv_applyOp {c : Contract} (h : LedgerInv c) (op : Op) : LedgerInv (applyOp c op) := by
  cases op with
  | create s n t f1n f1u f2n f2u dl => exact inv_create h s n t f1n f1u f2n f2u dl
  | vote s n d ch => exact inv_vote h s n d ch

theorem inv_runFrom {c : Contract} (h : LedgerInv c) (ops : List Op) : LedgerInv (runFrom c ops) := by
  induction ops generalizing c with
  | nil => exact h
  | cons op ops ih => exact ih (inv_applyOp h op)

theorem inv_run (o : String) (ops : List Op) : LedgerInv (run o ops) :=
  inv_runFrom (inv_new o) ops

theorem applyOp_debates_persist {c : Contract} (h : LedgerInv c) (op : Op)
    {k : Nat} {deb : Debate} (hm : mapGet c.debates k = some deb) :
    mapGet (applyOp c op).debates k = some deb := by
  cases op with
  | create s n t f1n f1u f2n f2u dl =>
      show mapGet (create_debate c s n t f1n f1u f2n f2u dl).1.debates k = some deb
      rw [create_debate_fst_debates]
      exact mapGet_insert_of_some (fun p hp => Nat.ne_of_lt (h.dkeys p hp)) hm
  | vote s n d ch =>
      show mapGet (vote_debate c s n d ch).1.debates k = some deb
      rw [vote_debate_fst_debates]
      exact hm

theorem runFrom_debates_persist {c : Contract} (h : LedgerInv c) (ops : List Op)
    {k : Nat} {deb : Debate} (hm : mapGet c.debates k = some deb) :
    mapGet (runFrom c ops).debates k = some deb := by
  induction ops generalizing c with
  | nil => exact hm
  | cons op ops ih => exact ih (inv_applyOp h op) (applyOp_debates_persist h op hm)

theorem applyOp_votes_mem {c : Contract} (h : LedgerInv c) (op : Op)
    {p : Nat × Vote} (hm : p ∈ c.votes) : p ∈ (applyOp c op).votes := by
  cases op with
  | create s n t f1n f1u f2n f2u dl =>
      show p ∈ (create_debate c s n t f1n f1u f2n f2u dl).1.votes
      rw [create_debate_fst_votes]
      exact hm
  | vote s n d ch =>
      show p ∈ (vote_debate c s n d ch).1.votes
      rcases hr : (vote_debate c s n d ch).2 with e | id
      · rw [vote_debate_error_fst hr]
        exact hm
      · obtain ⟨_, _, _, _, hfst⟩ := vote_debate_ok_elim hr
        rw [hfst]
        dsimp only
        rw [mapInsert_fresh _ (fun q hq => Nat.ne_of_lt (h.vkeys q hq))]
        exact List.mem_append.mpr (Or.inl hm)

theorem runFrom_votes_mem {c : Contract} (h : LedgerInv c) (ops : List Op)
    {p : Nat × Vote} (hm : p ∈ c.votes) : p ∈ (runFrom c ops).votes := by
  induction ops generalizing c with
  | nil => exact hm
  | cons op ops ih => exact ih (inv_applyOp h op) (applyOp_votes_mem h op hm)

theorem createdIds_lb (ops : List Op) :
    ∀ c : Contract, ∀ i ∈ createdIds c ops, c.next_debate_id ≤ i := by
  induction ops with
  | nil =>
      intro c i hi
      simp [createdIds] at hi
  | cons op ops ih =>
      intro c i hi
      cases op with
      | create s n t f1n f1u f2n f2u dl =>
          simp only [createdIds] at hi
          rcases List.mem_cons.mp hi with h1 | h1
          · rw [create_debate_snd] at h1
            omega
          · have := ih _ _ h1
            rw [create_debate_fst_next_debate_id] at this
            omega
      | vote s n d ch =>
          simp only [createdIds] at hi
          have := ih _ _ hi
          rw [vote_debate_fst_next_debate_id] at this
          exact this

theorem createdIds_pairwise (ops : List Op) :
    ∀ c : Contract, (createdIds c ops).Pairwise (fun a b => a < b) := by
  induction ops with
  | nil =>
      intro c
      simp [createdIds]
  | cons op ops ih =>
      intro c
      cases op with
      | create s n t f1n f1u f2n f2u dl =>
          simp only [createdIds]
          rw [List.pairwise_cons]
          constructor
          · intro i hi
            have := createdIds_lb ops _ i hi
            rw [create_debate_fst_next_debate_id] at this
            rw [create_debate_snd]
            omega
          · exact ih _
      | vote s n d ch =>
          simp only [createdIds]
          exact ih _

theorem voteIds_lb (ops : List Op) :
    ∀ c : Contract, ∀ i ∈ voteIds c ops, c.next_vote_id ≤ i := by
  induction ops with
  | nil =>
      intro c i hi
      simp [voteIds] at hi
  | cons op ops ih =>
      intro c i hi
      cases op with
      | create s n t f1n f1u f2n f2u dl =>
          simp only [voteIds] at hi
          have := ih _ _ hi
          rw [create_debate_fst_next_vote_id] at this
          exact this
      | vote s n d ch =>
          rcases hr : (vote_debate c s n d ch).2 with e | id
          · simp only [voteIds, hr] at hi
            have := ih _ _ hi
            rw [vote_debate_error_fst hr] at this
            exact this
          · simp only [voteIds, hr] at hi
            obtain ⟨hid, _, _, _, hfst⟩ := vote_debate_ok_elim hr
            rcases List.mem_cons.mp hi with h1 | h1
            · omega
            · have := ih _ _ h1
              rw [hfst] at this
              dsimp only at this
              omega

theorem voteIds_pairwise (ops : List Op) :
    ∀ c : Contract, (voteIds c ops).Pairwise (fun a b => a < b) := by
  induction ops with
  | nil =>
      intro c
      simp [voteIds]
  | cons op ops ih =>
      intro c
      cases op with
      | create s n t f1n f1u f2n f2u dl =>
          simp only [voteIds]
          exact ih _
      | vote s n d ch =>
          rcases hr : (vote_debate c s n d ch).2 with e | id
          · simp only [voteIds, hr]
            exact ih _
          · simp only [voteIds, hr]
            rw [List.pairwise_cons]
            obtain ⟨hid, _, _, _, hfst⟩ := vote_debate_ok_elim hr
            constructor
            · intro i hi
              have := voteIds_lb ops _ i hi
              rw [hfst] at this
              dsimp only at this
              omega
            · exact ih _

theorem tally_fold (d : Nat) (votes : List (Nat × Vote)) :
    ∀ a b : Nat, votes.foldl (tallyStep d) (a, b) =
      (a + votes.countP (fun p => decide (p.2.debate_id = d) && decide (p.2.choice = 1)),
       b + votes.countP (fun p => decide (p.2.debate_id = d) && decide (p.2.choice = 2))) := by
  induction votes with
  | nil =>
      intro a b
      simp
  | cons p l ih =>
      intro a b
      rw [List.foldl_cons]
      by_cases hd : p.2.debate_id = d
      · by_cases h1 : p.2.choice = 1
        · rw [show tallyStep d (a, b) p = (a + 1, b) by simp [tallyStep, hd, h1], ih]
          simp [List.countP_cons, hd, h1, Prod.ext_iff]
          omega
        · by_cases h2 : p.2.choice = 2
          · rw [show tallyStep d (a, b) p = (a, b + 1) by simp [tallyStep, hd, h1, h2], ih]
            simp [List.countP_cons, hd, h1, h2, Prod.ext_iff]
            omega
          · rw [show tallyStep d (a, b) p = (a, b) by simp [tallyStep, hd, h1, h2], ih]
            simp [List.countP_cons, hd, h1, h2]
      · rw [show tallyStep d (a, b) p = (a, b) by simp [tallyStep, hd], ih]
        simp [List.countP_cons, hd]

theorem tally_eq (votes : List (Nat × Vote)) (d : Nat) :
    tally votes d =
      (votes.countP (fun p => decide (p.2.debate_id = d) && decide (p.2.choice = 1)),
       votes.countP (fun p => decide (p.2.debate_id = d) && decide (p.2.choice = 2))) := by
  have h := tally_fold d votes 0 0
  simpa [tally] using h

theorem countP_votes_split (d : Nat) (votes : List (Nat × Vote)) :
    (∀ p ∈ votes, p.2.choice = 1 ∨ p.2.choice = 2) →
    votes.countP (fun p => decide (p.2.debate_id = d) && decide (p.2.choice = 1)) +
      votes.countP (fun p => decide (p.2.debate_id = d) && decide (p.2.choice = 2)) =
      votes.countP (fun p => decide (p.2.debate_id = d)) := by
  induction votes with
  | nil =>
      intro _
      simp
  | cons p l ih =>
      intro hch
      have hl := ih (fun q hq => hch q (List.mem_cons_of_mem p hq))
      have hp := hch p (List.mem_cons_self p l)
      rw [List.countP_cons, List.countP_cons, List.countP_cons]
      by_cases hd : p.2.debate_id = d
      · rcases hp with h1 | h2
        · simp [hd, h1]
          omega
        · simp [hd, h2]
          omega
      · simp [hd]
        omega

theorem countP_le_one_of_pairwise {α : Type} {pr : α → Bool} {l : List α}
    (h : l.Pairwise (fun a b => ¬(pr a = true ∧ pr b = true))) :
    l.countP pr ≤ 1 := by
  induction l with
  | nil => simp
  | cons a l ih =>
      rw [List.pairwise_cons] at h
      rw [List.countP_cons]
      by_cases ha : pr a
      · have hz : l.countP pr = 0 := by
          rw [List.countP_eq_zero]
          intro b hb hpb
          exact h.1 b hb ⟨ha, hpb⟩
        rw [hz]
        simp [ha]
      · have := ih h.2
        simp only [Bool.not_eq_true] at ha
        simp [ha]
        omega

theorem filter_eq_singleton_of_pairwise {α : Type} {pr : α → Bool} {l : List α} {x : α}
    (h : l.Pairwise (fun a b => ¬(pr a = true ∧ pr b = true)))
    (hx : x ∈ l) (hpx : pr x = true) : l.filter pr = [x] := by
  have hlen : (l.filter pr).length ≤ 1 := by
    rw [← List.countP_eq_length_filter]
    exact countP_le_one_of_pairwise h
  have hxf : x ∈ l.filter pr := List.mem_filter.mpr ⟨hx, hpx⟩
  rcases hf : l.filter pr with _ | ⟨a, t⟩
  · rw [hf] at hxf
    simp at hxf
  · rw [hf] at hxf hlen
    rcases t with _ | ⟨b, t2⟩
    · have hxa : x = a := by simpa using hxf
      rw [hxa]
    · simp at hlen

theorem debates_keys_createdIds (ops : List Op) :
    ∀ c : Contract, ∀ p ∈ (runFrom c ops).debates,
      p ∈ c.debates ∨ p.1 ∈ createdIds c ops := by
  induction ops with
  | nil =>
      intro c p hp
      exact Or.inl hp
  | cons op ops ih =>
      intro c p hp
      cases op with
      | create s n t f1n f1u f2n f2u dl =>
          rcases ih _ p hp with hm | hm
          · simp only [applyOp] at hm
            rw [create_debate_fst_debates] at hm
            rcases mapInsert_mem hm with hm2 | hm2
            · exact Or.inl hm2
            · right
              simp only [createdIds, create_debate_snd]
              exact List.mem_cons.mpr (Or.inl hm2)
          · right
            simp only [applyOp] at hm
            simp only [createdIds]
            exact List.mem_cons.mpr (Or.inr hm)
      | vote s n d ch =>
          rcases ih _ p hp with hm | hm
          · simp only [applyOp] at hm
            rw [vote_debate_fst_debates] at hm
            exact Or.inl hm
          · right
            simp only [applyOp] at hm
            simp only [createdIds]
            exact hm

theorem mapInsert_self_mem {α : Type} (m : List (Nat × α)) (k : Nat) (v : α) :
    (k, v) ∈ mapInsert m k v := by
  unfold mapInsert
  split
  · rename_i hany
    rw [List.any_eq_true] at hany
    obtain ⟨p, hp, hpk⟩ := hany
    refine List.mem_map.mpr ⟨p, hp, ?_⟩
    rw [if_pos hpk]
  · exact List.mem_append.mpr (Or.inr (by simp))

theorem get_user_vote_none_iff (c : Contract) (s : String) (d : Nat) :
    get_user_vote_in_debate c s d = none ↔
      ∀ p ∈ c.votes, ¬(p.2.debate_id = d ∧ p.2.voter = s) := by
  simp [get_user_vote_in_debate, List.find?_eq_none]

theorem get_user_vote_of_mem {c : Contract} {s : String} {d : Nat} {p : Nat × Vote}
    (huniq : c.votes.Pairwise
      (fun p q => ¬(p.2.debate_id = q.2.debate_id ∧ p.2.voter = q.2.voter)))
    (hmem : p ∈ c.votes) (hd : p.2.debate_id = d) (hv : p.2.voter = s) :
    get_user_vote_in_debate c s d = some (p.2.choice, p.2.voted_at) := by
  have hpair : c.votes.Pairwise (fun a b =>
      ¬((a.2.debate_id == d && a.2.voter == s) = true ∧
        (b.2.debate_id == d && b.2.voter == s) = true)) := by
    refine huniq.imp ?_
    intro a b hab hcon
    simp only [Bool.and_eq_true, beq_iff_eq] at hcon
    exact hab ⟨hcon.1.1.trans hcon.2.1.symm, hcon.1.2.trans hcon.2.2.symm⟩
  have hfil := filter_eq_singleton_of_pairwise hpair hmem (by simp [hd, hv])
  unfold get_user_vote_in_debate
  rw [find_eq_head_filter, hfil]
  rfl

theorem get_user_vote_eq_map_filter (c : Contract) (s : String) (d : Nat) :
    get_user_vote_in_debate c s d =
      ((c.votes.map Prod.snd).filter
        (fun v => v.debate_id == d && v.voter == s)).head?.map
        (fun v => (v.choice, v.voted_at)) := by
  rw [← find_eq_head_filter, List.find?_map]
  unfold get_user_vote_in_debate
  rw [Option.map_map]
  rfl

theorem mem_get_debates {c : Contract} {s : DebateSummary} (h : s ∈ get_debates c) :
    ∃ p ∈ c.debates, s.debate_id = p.1 ∧
      s.figure_1_votes = (tally c.votes p.1).1 ∧
      s.figure_2_votes = (tally c.votes p.1).2 := by
  unfold get_debates at h
  rcases List.mem_map.mp h with ⟨p, hp, he⟩
  refine ⟨p, hp, ?_, ?_, ?_⟩ <;> rw [← he]

theorem get_detail_none_of_not_created (o : String) (ops : List Op) (d : Nat)
    (h : d ∉ createdIds (Contract.new o) ops) :
    get_detail_debate (run o ops) d = none := by
  unfold get_detail_debate
  rw [Option.map_eq_none', mapGet_eq_none_iff]
  intro p hp hk
  rcases debates_keys_createdIds ops _ p hp with hm | hm
  · simp [Contract.new] at hm
  · rw [hk] at hm
    exact h hm

theorem run_append_cons (o : String) (ops1 : List Op) (op : Op) (ops2 : List Op) :
    run o (ops1 ++ op :: ops2) = runFrom (applyOp (run o ops1) op) ops2 := by
  unfold run runFrom
  rw [List.foldl_append, List.foldl_cons]

/-- Claim C1: in every state reachable by any sequence of create_debate and
vote_debate calls, at most one stored Vote matches any given (debateId,
voter) pair; since the trace of operations is arbitrary, every operation
preserves this invariant. -/
theorem claim_C1_unique_vote_per_pair (o : String) (ops : List Op)
    (d : Nat) (v : String) :
    (run o ops).votes.countP
      (fun p => decide (p.2.debate_id = d) && decide (p.2.voter = v)) ≤ 1 := by
  have huniq := (inv_run o ops).uniq
  apply countP_le_one_of_pairwise
  refine huniq.imp ?_
  intro a b hab hcon
  simp only [Bool.and_eq_true, decide_eq_true_eq] at hcon
  exact hab ⟨hcon.1.1.trans hcon.2.1.symm, hcon.1.2.trans hcon.2.2.symm⟩

/-- Claim C3: whenever vote_debate fails with any of its three errors, every
component of the ledger (debates map, votes map, next_debate_id,
next_vote_id, owner_id) is exactly what it was before the call. -/
theorem claim_C3_error_leaves_ledger_unchanged (c : Contract) (s : String)
    (n d ch : Nat) (e : VoteError)
    (h : (vote_debate c s n d ch).2 = Except.error e) :
    (vote_debate c s n d ch).1.debates = c.debates ∧
    (vote_debate c s n d ch).1.votes = c.votes ∧
    (vote_debate c s n d ch).1.next_debate_id = c.next_debate_id ∧
    (vote_debate c s n d ch).1.next_vote_id = c.next_vote_id ∧
    (vote_debate c s n d ch).1.owner_id = c.owner_id := by
  rw [vote_debate_error_fst h]
  exact ⟨rfl, rfl, rfl, rfl, rfl⟩

/-- Witness for C3: a concrete failing call (vote on the nonexistent
debate 1 of a fresh contract) leaves every ledger component unchanged. -/
theorem claim_C3_witness :
    (vote_debate (Contract.new sOwner) sBob 5 1 1).1.debates = (Contract.new sOwner).debates ∧
    (vote_debate (Contract.new sOwner) sBob 5 1 1).1.votes = (Contract.new sOwner).votes ∧
    (vote_debate (Contract.new sOwner) sBob 5 1 1).1.next_debate_id =
      (Contract.new sOwner).next_debate_id ∧
    (vote_debate (Contract.new sOwner) sBob 5 1 1).1.next_vote_id =
      (Contract.new sOwner).next_vote_id ∧
    (vote_debate (Contract.new sOwner) sBob 5 1 1).1.owner_id =
      (Contract.new sOwner).owner_id :=
  claim_C3_error_leaves_ledger_unchanged (Contract.new sOwner) sBob 5 1 1
    VoteError.NotFound (by decide)

/-- Claim C4: across any trace from a fresh contract, the ids returned by
create_debate are strictly increasing (hence never repeat), the ids
returned by successful vote_debate calls are strictly increasing (hence
never repeat), and each id counter advances independently of the other
(create_debate never touches next_vote_id, vote_debate never touches
next_debate_id). -/
theorem claim_C4_ids_strictly_increasing (o : String) (ops : List Op) :
    (createdIds (Contract.new o) ops).Pairwise (fun a b => a < b) ∧
    (voteIds (Contract.new o) ops).Pairwise (fun a b => a < b) ∧
    (∀ (c : Contract) (s : String) (n : Nat) (t f1n f1u f2n f2u : String)
        (dl : List (String × String × String)),
      (create_debate c s n t f1n f1u f2n f2u dl).1.next_vote_id = c.next_vote_id) ∧
    (∀ (c : Contract) (s : String) (n d ch : Nat),
      (vote_debate c s n d ch).1.next_debate_id = c.next_debate_id) :=
  ⟨createdIds_pairwise ops (Contract.new o), voteIds_pairwise ops (Contract.new o),
   fun c s n t f1n f1u f2n f2u dl => create_debate_fst_next_vote_id c s n t f1n f1u f2n f2u dl,
   fun c s n d ch => vote_debate_fst_next_debate_id c s n d ch⟩

/-- Claim C6: in every state, vote_debate on a debate id with no stored
debate fails with NotFound for every choice value (valid or not) and every
caller, and the state is returned untouched: the existence check precedes
every other validation. -/
theorem claim_C6_not_found_first (c : Contract) (s : String) (n d ch : Nat)
    (h : mapGet c.debates d = none) :
    vote_debate c s n d ch = (c, Except.error VoteError.NotFound) :=
  vote_debate_not_found h

/-- Witness for C6: voting on the nonexistent debate 7 of a fresh contract
with the invalid choice 9 still fails with NotFound. -/
theorem claim_C6_witness :
    vote_debate (Contract.new sOwner) sBob 5 7 9 =
      (Contract.new sOwner, Except.error VoteError.NotFound) :=
  claim_C6_not_found_first (Contract.new sOwner) sBob 5 7 9 (by decide)

/-- Claim C7: for every state holding the referenced debate and every choice
that is neither 1 nor 2, vote_debate fails with InvalidChoice — regardless
of whether the caller has already voted in that debate (the votes list is
unconstrained). -/
theorem claim_C7_invalid_choice (c : Contract) (s : String) (n d ch : Nat)
    (hd : mapGet c.debates d ≠ none) (h1 : ch ≠ 1) (h2 : ch ≠ 2) :
    vote_debate c s n d ch = (c, Except.error VoteError.InvalidChoice) :=
  vote_debate_invalid hd h1 h2

/-- Witness for C7: after bob has already voted in debate 1, bob's further
call with choice 5 fails with InvalidChoice (not DuplicateVote). -/
theorem claim_C7_witness :
    vote_debate (run sOwner cexOps) sBob 300 1 5 =
      (run sOwner cexOps, Except.error VoteError.InvalidChoice) :=
  claim_C7_invalid_choice (run sOwner cexOps) sBob 300 1 5
    (by decide) (by decide) (by decide)

/-- Claim C2: on every reachable state, each row of get_debates carries
tallies that count exactly the stored choice-1 and choice-2 votes for its
debate id, and their sum equals the total number of stored votes with that
debate id (each stored vote lands in exactly one tally); likewise for the
record returned by get_detail_debate. -/
theorem claim_C2_tally_partition (o : String) (ops : List Op) :
    (∀ s ∈ get_debates (run o ops),
      s.figure_1_votes = (run o ops).votes.countP
          (fun p => decide (p.2.debate_id = s.debate_id) && decide (p.2.choice = 1)) ∧
      s.figure_2_votes = (run o ops).votes.countP
          (fun p => decide (p.2.debate_id = s.debate_id) && decide (p.2.choice = 2)) ∧
      s.figure_1_votes + s.figure_2_votes =
        (run o ops).votes.countP (fun p => decide (p.2.debate_id = s.debate_id))) ∧
    (∀ (d : Nat) (det : DebateDetail), get_detail_debate (run o ops) d = some det →
      det.figure_1_votes = (run o ops).votes.countP
          (fun p => decide (p.2.debate_id = d) && decide (p.2.choice = 1)) ∧
      det.figure_2_votes = (run o ops).votes.countP
          (fun p => decide (p.2.debate_id = d) && decide (p.2.choice = 2)) ∧
      det.figure_1_votes + det.figure_2_votes =
        (run o ops).votes.countP (fun p => decide (p.2.debate_id = d))) := by
  have hch := (inv_run o ops).choiceOk
  constructor
  · intro s hs
    obtain ⟨p, hp, hid, h1, h2⟩ := mem_get_debates hs
    rw [h1, h2, hid, tally_eq]
    exact ⟨rfl, rfl, countP_votes_split p.1 (run o ops).votes hch⟩
  · intro d det hdet
    unfold get_detail_debate at hdet
    rcases hmg : mapGet (run o ops).debates d with _ | deb
    · rw [hmg] at hdet
      simp at hdet
    · rw [hmg] at hdet
      simp only [Option.map_some'] at hdet
      have hdet2 := (Option.some.inj hdet).symm
      rw [hdet2]
      dsimp only
      rw [tally_eq]
      exact ⟨rfl, rfl, countP_votes_split d (run o ops).votes hch⟩

/-- Witness for C2: in the concrete trace where bob voted choice 1 in
debate 1, the listed row for debate 1 satisfies all three tally equations. -/
theorem claim_C2_witness :
    DebateSummary.mk 1 sTopic sAlice 100 sNameA sUrlA sNameB sUrlB 1 0 ∈
        get_debates (run sOwner cexOps) ∧
    (1 : Nat) = (run sOwner cexOps).votes.countP
        (fun p => decide (p.2.debate_id = 1) && decide (p.2.choice = 1)) ∧
    (0 : Nat) = (run sOwner cexOps).votes.countP
        (fun p => decide (p.2.debate_id = 1) && decide (p.2.choice = 2)) ∧
    (1 : Nat) + 0 = (run sOwner cexOps).votes.countP
        (fun p => decide (p.2.debate_id = 1)) := by
  have hmem : DebateSummary.mk 1 sTopic sAlice 100 sNameA sUrlA sNameB sUrlB 1 0 ∈
        get_debates (run sOwner cexOps) := by decide
  have h := (claim_C2_tally_partition sOwner cexOps).1 _ hmem
  exact ⟨hmem, h.1, h.2.1, h.2.2⟩

/-- Counterexample to claim C5 as stated: after bob's successful first vote
in debate 1, a second call by bob with choice 3 fails with InvalidChoice
rather than DuplicateVote — the choice validation precedes the duplicate
check, so the second call does not fail with DuplicateVote for every
choice value. -/
theorem claim_C5_counterexample :
    (vote_debate (run sOwner cexOps1) sBob 200 1 1).2 = Except.ok 1 ∧
    (vote_debate (run sOwner cexOps) sBob 300 1 3).2 =
      Except.error VoteError.InvalidChoice ∧
    (vote_debate (run sOwner cexOps) sBob 300 1 3).2 ≠
      Except.error VoteError.DuplicateVote := by
  decide

/-- Claim C5 (amended): if the caller has not yet voted in an existing
debate, the first vote_debate call with a valid choice succeeds, and a
second call by the same caller for the same debate fails with
DuplicateVote for any valid (1 or 2) choice supplied on the second call;
with an invalid second choice it fails with InvalidChoice instead, as the
choice check precedes the duplicate check. -/
theorem claim_C5_second_vote_duplicate (c : Contract) (s : String)
    (n1 n2 d ch1 ch2 : Nat)
    (hdeb : mapGet c.debates d ≠ none) (hch1 : ch1 = 1 ∨ ch1 = 2)
    (hnew : voteExists c.votes d s = false) (hch2 : ch2 = 1 ∨ ch2 = 2) :
    (vote_debate c s n1 d ch1).2 = Except.ok c.next_vote_id ∧
    (vote_debate (vote_debate c s n1 d ch1).1 s n2 d ch2).2 =
      Except.error VoteError.DuplicateVote := by
  have hr2 : (vote_debate c s n1 d ch1).2 = Except.ok c.next_vote_id := by
    rw [vote_debate_success hdeb hch1 hnew]
  obtain ⟨_, _, _, _, hfst⟩ := vote_debate_ok_elim hr2
  refine ⟨hr2, ?_⟩
  have hd2 : mapGet (vote_debate c s n1 d ch1).1.debates d ≠ none := by
    rw [vote_debate_fst_debates]
    exact hdeb
  have hex2 : voteExists (vote_debate c s n1 d ch1).1.votes d s = true := by
    rw [hfst]
    dsimp only
    rw [voteExists, List.any_eq_true]
    refine ⟨(c.next_vote_id,
      { debate_id := d, voter := s, voted_at := n1, choice := ch1 }),
      mapInsert_self_mem c.votes c.next_vote_id _, by simp⟩
  rw [vote_debate_duplicate hd2 hch2 hex2]

/-- Witness for the amended C5: bob votes choice 1 in debate 1; a second
vote by bob with the valid choice 2 fails with DuplicateVote. -/
theorem claim_C5_witness :
    (vote_debate (run sOwner cexOps1) sBob 200 1 1).2 =
      Except.ok (run sOwner cexOps1).next_vote_id ∧
    (vote_debate (vote_debate (run sOwner cexOps1) sBob 200 1 1).1 sBob 300 1 2).2 =
      Except.error VoteError.DuplicateVote :=
  claim_C5_second_vote_duplicate (run sOwner cexOps1) sBob 200 300 1 1 2
    (by decide) (by decide) (by decide) (by decide)

/-- Claim C8: get_detail_debate returns none (absent, not an error) on any
id never returned by a create_debate call of the trace; on the id assigned
by a create_debate call it returns some record whose stored fields are
exactly that call's arguments and environment inputs (topic, creator,
creation timestamp, both figure names and image urls, dialogue), with
tallies counting the choice-1 and choice-2 votes stored for that id in the
final state. -/
theorem claim_C8_detail_matches_creation (o : String) (ops1 ops2 : List Op)
    (s : String) (n : Nat) (t f1n f1u f2n f2u : String)
    (dl : List (String × String × String)) :
    (∀ d, d ∉ createdIds (Contract.new o)
        (ops1 ++ Op.create s n t f1n f1u f2n f2u dl :: ops2) →
      get_detail_debate (run o (ops1 ++ Op.create s n t f1n f1u f2n f2u dl :: ops2)) d =
        none) ∧
    get_detail_debate (run o (ops1 ++ Op.create s n t f1n f1u f2n f2u dl :: ops2))
        (run o ops1).next_debate_id =
      some { debate_id := (run o ops1).next_debate_id, topic := t, creator := s,
             created_at := n,
             figure_1_name := f1n, figure_1_image_url := f1u,
             figure_2_name := f2n, figure_2_image_url := f2u,
             debate_dialogue := dl,
             figure_1_votes :=
               (run o (ops1 ++ Op.create s n t f1n f1u f2n f2u dl :: ops2)).votes.countP
                 (fun p => decide (p.2.debate_id = (run o ops1).next_debate_id) &&
                   decide (p.2.choice = 1)),
             figure_2_votes :=
               (run o (ops1 ++ Op.create s n t f1n f1u f2n f2u dl :: ops2)).votes.countP
                 (fun p => decide (p.2.debate_id = (run o ops1).next_debate_id) &&
                   decide (p.2.choice = 2)) } := by
  constructor
  · intro d hd
    exact get_detail_none_of_not_created o _ d hd
  · have hinv1 : LedgerInv (run o ops1) := inv_run o ops1
    have hmid : mapGet (applyOp (run o ops1) (Op.create s n t f1n f1u f2n f2u dl)).debates
        (run o ops1).next_debate_id =
        some { topic := t, creator := s, created_at := n,
               figure_1_name := f1n, figure_1_image_url := f1u,
               figure_2_name := f2n, figure_2_image_url := f2u,
               debate_dialogue := dl } := by
      show mapGet (create_debate (run o ops1) s n t f1n f1u f2n f2u dl).1.debates _ = _
      rw [create_debate_fst_debates]
      exact mapGet_insert_self (fun p hp => Nat.ne_of_lt (hinv1.dkeys p hp))
    have hfin : mapGet (run o (ops1 ++ Op.create s n t f1n f1u f2n f2u dl :: ops2)).debates
        (run o ops1).next_debate_id =
        some { topic := t, creator := s, created_at := n,
               figure_1_name := f1n, figure_1_image_url := f1u,
               figure_2_name := f2n, figure_2_image_url := f2u,
               debate_dialogue := dl } := by
      rw [run_append_cons]
      exact runFrom_debates_persist (inv_applyOp hinv1 _) ops2 hmid
    unfold get_detail_debate
    rw [hfin]
    simp only [Option.map_some']
    rw [tally_eq]

/-- Witness for C8: in the single-creation trace, the never-created id 5
queries to none, and id 1 returns exactly the stored creation data with
zero tallies. -/
theorem claim_C8_witness :
    get_detail_debate (run sOwner cexOps1) 5 = none ∧
    get_detail_debate (run sOwner cexOps1) 1 =
      some { debate_id := 1, topic := sTopic, creator := sAlice, created_at := 100,
             figure_1_name := sNameA, figure_1_image_url := sUrlA,
             figure_2_name := sNameB, figure_2_image_url := sUrlB,
             debate_dialogue := [], figure_1_votes := 0, figure_2_votes := 0 } := by
  have h := claim_C8_detail_matches_creation sOwner [] [] sAlice 100 sTopic
    sNameA sUrlA sNameB sUrlB []
  exact ⟨h.1 5 (by decide), h.2⟩

/-- Claim C9: get_user_vote_in_debate returns none exactly when no stored
vote matches the caller and the debate; and when the caller's vote_debate
call for that debate succeeded at some point of the trace, the query in the
final state returns exactly the (choice, votedAt) pair recorded by that
call. -/
theorem claim_C9_user_vote_exact (o : String) (signer : String) (d : Nat) :
    (∀ ops : List Op,
      get_user_vote_in_debate (run o ops) signer d = none ↔
        ∀ p ∈ (run o ops).votes, ¬(p.2.debate_id = d ∧ p.2.voter = signer)) ∧
    (∀ (ops1 : List Op) (n ch id : Nat) (ops2 : List Op),
      (vote_debate (run o ops1) signer n d ch).2 = Except.ok id →
      get_user_vote_in_debate (run o (ops1 ++ Op.vote signer n d ch :: ops2)) signer d =
        some (ch, n)) := by
  constructor
  · intro ops
    exact get_user_vote_none_iff (run o ops) signer d
  · intro ops1 n ch id ops2 hok
    obtain ⟨hid, _, _, _, hfst⟩ := vote_debate_ok_elim hok
    have hinv1 : LedgerInv (run o ops1) := inv_run o ops1
    have hmem0 : ((run o ops1).next_vote_id,
        ({ debate_id := d, voter := signer, voted_at := n, choice := ch } : Vote)) ∈
        (applyOp (run o ops1) (Op.vote signer n d ch)).votes := by
      show _ ∈ (vote_debate (run o ops1) signer n d ch).1.votes
      rw [hfst]
      dsimp only
      exact mapInsert_self_mem _ _ _
    have hmem : ((run o ops1).next_vote_id,
        ({ debate_id := d, voter := signer, voted_at := n, choice := ch } : Vote)) ∈
        (run o (ops1 ++ Op.vote signer n d ch :: ops2)).votes := by
      rw [run_append_cons]
      exact runFrom_votes_mem (inv_applyOp hinv1 _) ops2 hmem0
    have huniq := (inv_run o (ops1 ++ Op.vote signer n d ch :: ops2)).uniq
    exact get_user_vote_of_mem huniq hmem rfl rfl

/-- Witness for C9: bob's successful vote (choice 1, time 200) in debate 1
is returned exactly by the query in the final state. -/
theorem claim_C9_witness :
    get_user_vote_in_debate (run sOwner (cexOps1 ++ Op.vote sBob 200 1 1 :: [])) sBob 1 =
      some (1, 200) :=
  (claim_C9_user_vote_exact sOwner sBob 1).2 cexOps1 200 1 1 [] (by decide)

/-- Claim C10: the result of get_user_vote_in_debate depends only on the
caller's own stored votes for the given debate: any two states that agree
on the sequence of the caller's Vote records for that debate — however
much they differ in other participants' votes or any other component —
give the same query result, so the operation cannot observe another
participant's vote. -/
theorem claim_C10_result_caller_scoped (c1 c2 : Contract) (signer : String) (d : Nat)
    (h : (c1.votes.map Prod.snd).filter
          (fun v => v.debate_id == d && v.voter == signer) =
         (c2.votes.map Prod.snd).filter
          (fun v => v.debate_id == d && v.voter == signer)) :
    get_user_vote_in_debate c1 signer d = get_user_vote_in_debate c2 signer d := by
  rw [get_user_vote_eq_map_filter, get_user_vote_eq_map_filter, h]

/-- Witness for C10: bob's query result is the same before and after
alice's unrelated vote enters the ledger. -/
theorem claim_C10_witness :
    get_user_vote_in_debate (run sOwner cexOps) sBob 1 =
      get_user_vote_in_debate (run sOwner cexOps2) sBob 1 :=
  claim_C10_result_caller_scoped (run sOwner cexOps) (run sOwner cexOps2) sBob 1
    (by decide)
